import Mathlib

/-
Verification of lleeroy/bitcoin_snp_covariance.

Shallow embedding of the two core source files:
  * src/data.rs    — tokens, series fetching/parsing, alignment and statistics;
  * src/request.rs — the retrying HTTP request executor.

Numeric f64 values are idealized as real numbers; calendar dates (NaiveDate)
are idealized as integers (day index); a HashMap<NaiveDate, f64> is embedded
as a finite key set together with a price function.
-/

namespace BitcoinSnpCov

/-! ## Token (src/data.rs, enum Token) -/

/-- Embedding of `enum Token` from src/data.rs. -/
inductive Token where
  | Bitcoin
  | Ethereum
  | Solana
  | Snp500
deriving DecidableEq

/-- Embedding of `Token::id` (src/data.rs lines 36–43): the identifier used in
the Yahoo Finance API for the token. -/
def Token.id : Token → String
  | Token.Ethereum => "ETH-USD"
  | Token.Bitcoin => "BTC-USD"
  | Token.Solana => "SOL-USD"
  | Token.Snp500 => "%5EGSPC"

/-- Embedding of `Token::as_string` (src/data.rs lines 65–72): the string
representation of the token used in error messages. -/
def Token.as_string : Token → String
  | Token.Ethereum => "Ethereum"
  | Token.Bitcoin => "Bitcoin"
  | Token.Solana => "SOL-USD"
  | Token.Snp500 => "Snp500"

/-- Embedding of `Token::from_str` (src/data.rs lines 54–62). Lower-casing of
the input is kept as in the source. -/
def Token.from_str (token : String) : Option Token :=
  match token.toLower with
  | "bitcoin" => some Token.Bitcoin
  | "btc" => some Token.Bitcoin
  | "snp500" => some Token.Snp500
  | "snp" => some Token.Snp500
  | "solana" => some Token.Solana
  | "sol" => some Token.Solana
  | "ethereum" => some Token.Ethereum
  | "eth" => some Token.Ethereum
  | _ => none

/-! ## Series: the HashMap<NaiveDate, f64> of src/data.rs -/

/-- A date-keyed price series: embedding of `HashMap<NaiveDate, f64>`.
`keys` is the finite set of dates present in the map and `price` gives the
stored value on those keys (its values outside `keys` are never consulted). -/
structure Series where
  keys : Finset ℤ
  price : ℤ → ℝ

/-- Errors raised by the alignment phase of
`HistoricalData::calculate_covariance` (src/data.rs lines 114–126). -/
inductive CovError where
  | noCommonTimestamps
  | dataLenMismatch
deriving DecidableEq

/-- Embedding of the trimming step of `calculate_covariance`
(src/data.rs lines 95–106): if the two maps have different sizes, the larger
map retains only the dates present in the smaller one; equal-sized maps are
left untouched. -/
def trim_series (a b : Series) : Series × Series :=
  if a.keys.card ≠ b.keys.card then
    if a.keys.card > b.keys.card then
      (⟨a.keys.filter (fun d => d ∈ b.keys), a.price⟩, b)
    else
      (a, ⟨b.keys.filter (fun d => d ∈ a.keys), b.price⟩)
  else
    (a, b)

/-- Embedding of the `common_dates` collection of `calculate_covariance`
(src/data.rs lines 108–112): the keys of the first map that also occur in the
second. -/
def common_dates (a b : Series) : Finset ℤ :=
  a.keys.filter (fun d => d ∈ b.keys)

/-- The alignment phase of `HistoricalData::calculate_covariance`
(src/data.rs lines 95–126): trim, compute the common dates, fail when they
are empty, then fail when the two maps still have different sizes; otherwise
hand the (possibly trimmed) pair on to the statistics computation. -/
def align (a b : Series) : Except CovError (Series × Series) :=
  if common_dates (trim_series a b).1 (trim_series a b).2 = ∅ then
    Except.error CovError.noCommonTimestamps
  else if (trim_series a b).1.keys.card ≠ (trim_series a b).2.keys.card then
    Except.error CovError.dataLenMismatch
  else
    Except.ok (trim_series a b)

/-! ## Basic facts about alignment -/

theorem common_dates_eq_inter (a b : Series) :
    common_dates a b = a.keys ∩ b.keys := by
  simp [common_dates, Finset.filter_mem_eq_inter]

theorem trim_series_common (a b : Series) :
    common_dates (trim_series a b).1 (trim_series a b).2 = a.keys ∩ b.keys := by
  unfold trim_series
  split
  · split
    · simp only [common_dates_eq_inter, Finset.filter_mem_eq_inter]
      exact Finset.inter_right_idem a.keys b.keys
    · simp only [common_dates_eq_inter, Finset.filter_mem_eq_inter]
      rw [Finset.inter_comm b.keys a.keys, ← Finset.inter_assoc, Finset.inter_self]
  · simp [common_dates_eq_inter]

theorem trim_series_of_card_eq (a b : Series) (h : a.keys.card = b.keys.card) :
    trim_series a b = (a, b) := by
  simp [trim_series, h]

/-- When the two maps have equal size, alignment never modifies them: a
successful alignment hands the inputs through unchanged. -/
theorem align_of_card_eq (a b : Series) (h : a.keys.card = b.keys.card)
    (hne : (a.keys ∩ b.keys).Nonempty) :
    align a b = Except.ok (a, b) := by
  unfold align
  rw [trim_series_of_card_eq a b h, common_dates_eq_inter]
  simp [Finset.nonempty_iff_ne_empty.mp hne, h]

/-! ## C1: the alignment invariant -/

/-- C1 (amended): if the date-key intersection is empty, alignment (and hence
`calculate_covariance`) fails with the "no common timestamps" error; and when
the two input series have unequal sizes, a successful alignment yields two
series with identical key sets, both of size `|keys(a) ∩ keys(b)|`.  (When
the input sizes are equal the series pass through unmodified, so their key
sets may differ — see the counterexample to the original claim.) -/
theorem align_invariant (a b : Series) :
    (a.keys ∩ b.keys = ∅ → align a b = Except.error CovError.noCommonTimestamps) ∧
    (∀ p : Series × Series, a.keys.card ≠ b.keys.card → align a b = Except.ok p →
      p.1.keys = p.2.keys ∧ p.1.keys.card = (a.keys ∩ b.keys).card) := by
  constructor
  · intro hempty
    unfold align
    simp [trim_series_common a b, hempty]
  · intro p hcard halign
    unfold align at halign
    rw [trim_series_common a b] at halign
    by_cases hempty : a.keys ∩ b.keys = ∅
    · simp [hempty] at halign
    · simp only [hempty, if_false] at halign
      by_cases hc : (trim_series a b).1.keys.card ≠ (trim_series a b).2.keys.card
      · simp [hc] at halign
      · simp only [hc, if_false] at halign
        push_neg at hc
        have hp : p = trim_series a b := by
          cases halign
          rfl
        subst hp
        unfold trim_series
        unfold trim_series at hc
        rw [if_pos hcard] at hc ⊢
        by_cases hgt : a.keys.card > b.keys.card
        · rw [if_pos hgt] at hc ⊢
          simp only [Finset.filter_mem_eq_inter] at hc
          have heq : a.keys ∩ b.keys = b.keys :=
            Finset.eq_of_subset_of_card_le Finset.inter_subset_right (le_of_eq hc.symm)
          refine ⟨?_, ?_⟩
          · show a.keys.filter (fun d => d ∈ b.keys) = b.keys
            rw [Finset.filter_mem_eq_inter]
            exact heq
          · show (a.keys.filter (fun d => d ∈ b.keys)).card = (a.keys ∩ b.keys).card
            rw [Finset.filter_mem_eq_inter]
        · rw [if_neg hgt] at hc ⊢
          simp only [Finset.filter_mem_eq_inter] at hc
          have heq : b.keys ∩ a.keys = a.keys :=
            Finset.eq_of_subset_of_card_le Finset.inter_subset_right (le_of_eq hc)
          refine ⟨?_, ?_⟩
          · show a.keys = b.keys.filter (fun d => d ∈ a.keys)
            rw [Finset.filter_mem_eq_inter]
            exact heq.symm
          · show a.keys.card = (a.keys ∩ b.keys).card
            rw [Finset.inter_comm a.keys b.keys, heq]

/-- Series used to refute the original C1 invariant: two equal-sized series
with different key sets. -/
def cex_a : Series := ⟨{0, 1}, fun _ => 0⟩

/-- Second series of the C1 counterexample. -/
def cex_b : Series := ⟨{0, 2}, fun _ => 0⟩

/-- C1 (counterexample to the original claim): two equal-sized series whose
key sets differ align successfully and unchanged — their key sets are not
identical after alignment, and their common length 2 differs from the size 1
of the key intersection. -/
theorem align_counterexample :
    align cex_a cex_b = Except.ok (cex_a, cex_b) ∧
    cex_a.keys ≠ cex_b.keys ∧
    cex_a.keys.card ≠ (cex_a.keys ∩ cex_b.keys).card := by
  refine ⟨?_, by decide, by decide⟩
  rfl

/-- Disjoint-keys series used in the C1 witness. -/
def wit_a : Series := ⟨{0}, fun _ => 0⟩

/-- Second series of the C1 witness, keys disjoint from `wit_a`. -/
def wit_b : Series := ⟨{1}, fun _ => 0⟩

/-- Unequal-size series used in the C1 witness. -/
def wit_c : Series := ⟨{0, 1}, fun _ => 0⟩

/-- C1 witness: the amended invariant applied at concrete inputs — disjoint
series fail with the no-common-timestamps error, and an unequal-size pair
that aligns successfully ends with identical key sets of the intersection's
size. -/
theorem align_invariant_witness :
    (align wit_a wit_b = Except.error CovError.noCommonTimestamps) ∧
    ((⟨{0}, wit_c.price⟩ : Series).keys = wit_a.keys ∧
      (⟨{0}, wit_c.price⟩ : Series).keys.card = (wit_c.keys ∩ wit_a.keys).card) :=
  ⟨(align_invariant wit_a wit_b).1 (by decide),
   (align_invariant wit_c wit_a).2 (⟨{0}, wit_c.price⟩, wit_a) (by decide) rfl⟩

/-! ## Statistics phase of calculate_covariance (src/data.rs lines 128–170) -/

/-- A value of an IEEE-754 double-precision computation whose operands are
idealized as exact reals: either a finite real, an infinity, or NaN. -/
inductive FpVal where
  | fin (x : ℝ)
  | posInf
  | negInf
  | nan

/-- IEEE-754 division of two finite doubles idealized as exact reals: a zero
divisor yields NaN when the dividend is zero and a signed infinity otherwise.
This models the unguarded f64 division `covariance / (std_dev1 * std_dev2)`
in src/data.rs line 163. -/
noncomputable def fpDiv (x y : ℝ) : FpVal :=
  if y = 0 then
    if x = 0 then FpVal.nan
    else if x > 0 then FpVal.posInf
    else FpVal.negInf
  else FpVal.fin (x / y)

/-- Embedding of the `mean1`/`mean2` computation of `calculate_covariance`
(src/data.rs lines 128–129): sum of the map's values divided by its size. -/
noncomputable def series_mean (s : Series) : ℝ :=
  Finset.sum s.keys s.price / (s.keys.card : ℝ)

/-- Embedding of `struct HistoricalDataCovariance` (src/data.rs lines 18–23);
the two token fields are omitted as they are just echoed inputs. -/
structure HistoricalDataCovariance where
  covariance : ℝ
  correlation_coefficient : FpVal

/-- The statistics phase of `calculate_covariance` (src/data.rs lines
128–170), applied to the aligned pair and its common dates: means over each
full (post-trim) map, covariance and the two standard deviations over the
common dates, and the unguarded division for the correlation coefficient. -/
noncomputable def covariance_stats (a b : Series) (common : Finset ℤ) :
    HistoricalDataCovariance :=
  let mean1 := series_mean a
  let mean2 := series_mean b
  let covariance :=
    Finset.sum common (fun d => (a.price d - mean1) * (b.price d - mean2)) /
      (common.card : ℝ)
  let std_dev1 :=
    Real.sqrt (Finset.sum common (fun d => (a.price d - mean1) * (a.price d - mean1)) /
      (common.card : ℝ))
  let std_dev2 :=
    Real.sqrt (Finset.sum common (fun d => (b.price d - mean2) * (b.price d - mean2)) /
      (common.card : ℝ))
  ⟨covariance, fpDiv covariance (std_dev1 * std_dev2)⟩

/-- Embedding of `HistoricalData::calculate_covariance` (src/data.rs lines
86–171) downstream of the two fetches: align the two series, then run the
statistics phase on the aligned pair over their common dates. -/
noncomputable def calculate_covariance (a b : Series) :
    Except CovError HistoricalDataCovariance :=
  match align a b with
  | Except.error e => Except.error e
  | Except.ok p => Except.ok (covariance_stats p.1 p.2 (common_dates p.1 p.2))

/-- With identical nonempty key sets, alignment is the identity. -/
theorem align_of_keys_eq (a b : Series) (hkeys : a.keys = b.keys)
    (hne : a.keys.Nonempty) :
    align a b = Except.ok (a, b) := by
  apply align_of_card_eq a b (by rw [hkeys])
  rw [hkeys, Finset.inter_self]
  exact hkeys ▸ hne

/-- With identical nonempty key sets, `calculate_covariance` succeeds and
returns the statistics phase over that key set. -/
theorem calculate_covariance_of_keys_eq (a b : Series) (hkeys : a.keys = b.keys)
    (hne : a.keys.Nonempty) :
    calculate_covariance a b = Except.ok (covariance_stats a b a.keys) := by
  unfold calculate_covariance
  rw [align_of_keys_eq a b hkeys hne]
  have hc : common_dates a b = a.keys := by
    rw [common_dates_eq_inter, hkeys, Finset.inter_self]
  simp [hc]

/-! ## Spec-side statistics (natural-language spec §4.4), for comparison -/

/-- Population mean of a series over a date set, following the spec's words. -/
noncomputable def spec_mean (s : Series) (D : Finset ℤ) : ℝ :=
  Finset.sum D s.price / (D.card : ℝ)

/-- Population variance of a series over a date set, following the spec's
words (divisor n, not n − 1). -/
noncomputable def spec_variance (s : Series) (D : Finset ℤ) : ℝ :=
  Finset.sum D (fun d => (s.price d - spec_mean s D) ^ 2) / (D.card : ℝ)

/-- Population standard deviation over a date set, following the spec's
words. -/
noncomputable def spec_std_dev (s : Series) (D : Finset ℤ) : ℝ :=
  Real.sqrt (spec_variance s D)

/-- Population covariance of two series over a common date set, following the
spec's words: (1/n) · Σ (a[d] − mean_a)(b[d] − mean_b). -/
noncomputable def spec_covariance (a b : Series) (D : Finset ℤ) : ℝ :=
  Finset.sum D (fun d => (a.price d - spec_mean a D) * (b.price d - spec_mean b D)) /
    (D.card : ℝ)

theorem covariance_stats_eq (a b : Series) (hkeys : a.keys = b.keys) :
    covariance_stats a b a.keys =
      ⟨spec_covariance a b a.keys,
        fpDiv (spec_covariance a b a.keys)
          (spec_std_dev a a.keys * spec_std_dev b a.keys)⟩ := by
  unfold covariance_stats spec_covariance spec_std_dev spec_variance spec_mean series_mean
  rw [← hkeys]
  simp only [pow_two]

/-- With identical nonempty key sets the whole computation evaluates to the
spec-side formulas. -/
theorem calculate_covariance_closed_form (a b : Series) (hkeys : a.keys = b.keys)
    (hne : a.keys.Nonempty) :
    calculate_covariance a b =
      Except.ok
        ⟨spec_covariance a b a.keys,
          fpDiv (spec_covariance a b a.keys)
            (spec_std_dev a a.keys * spec_std_dev b a.keys)⟩ := by
  rw [calculate_covariance_of_keys_eq a b hkeys hne, covariance_stats_eq a b hkeys]

theorem spec_variance_nonneg (s : Series) (D : Finset ℤ) : 0 ≤ spec_variance s D := by
  unfold spec_variance
  exact div_nonneg (Finset.sum_nonneg fun d _ => sq_nonneg _) (Nat.cast_nonneg _)

theorem spec_covariance_self (a : Series) (D : Finset ℤ) :
    spec_covariance a a D = spec_variance a D := by
  unfold spec_covariance spec_variance
  simp only [pow_two]

theorem spec_variance_zero_deviation (s : Series) (D : Finset ℤ)
    (h : spec_variance s D = 0) :
    ∀ d ∈ D, s.price d - spec_mean s D = 0 := by
  intro d hd
  unfold spec_variance at h
  rcases div_eq_zero_iff.mp h with hsum | hcard
  · have := (Finset.sum_eq_zero_iff_of_nonneg (fun d _ => sq_nonneg _)).mp hsum d hd
    exact sq_eq_zero_iff.mp this
  · exact absurd (Nat.cast_eq_zero.mp hcard)
      (Finset.card_ne_zero_of_mem hd)

theorem spec_covariance_of_zero_variance (a b : Series) (D : Finset ℤ)
    (h : spec_variance a D = 0 ∨ spec_variance b D = 0) :
    spec_covariance a b D = 0 := by
  unfold spec_covariance
  rcases h with h | h
  · rw [Finset.sum_congr rfl
      (fun d hd => by rw [spec_variance_zero_deviation a D h d hd, zero_mul]),
      Finset.sum_const, smul_zero, zero_div]
  · rw [Finset.sum_congr rfl
      (fun d hd => by rw [spec_variance_zero_deviation b D h d hd, mul_zero]),
      Finset.sum_const, smul_zero, zero_div]

/-! ## C3: the covariance formula -/

/-- C3: over an aligned pair (identical nonempty key sets, the common date
set), the returned covariance is the population covariance — sum of deviation
products over the common dates divided by n (not n − 1), with both means
taken over those same dates; and the covariance of a series with itself is
its population variance. -/
theorem calculate_covariance_formula (a b : Series) (hkeys : a.keys = b.keys)
    (hne : a.keys.Nonempty) :
    (∃ r, calculate_covariance a b = Except.ok r ∧
      r.covariance = spec_covariance a b a.keys) ∧
    (∃ r, calculate_covariance a a = Except.ok r ∧
      r.covariance = spec_variance a a.keys) := by
  constructor
  · exact ⟨_, calculate_covariance_closed_form a b hkeys hne, rfl⟩
  · exact ⟨_, calculate_covariance_closed_form a a rfl hne,
      spec_covariance_self a a.keys⟩

/-- Series over dates 0 and 1 with prices 0 and 1, used in witnesses. -/
noncomputable def wit_lin : Series := ⟨{0, 1}, fun d => (d : ℝ)⟩

/-- C3 witness: the covariance formula applied to a concrete two-point
series paired with itself. -/
theorem calculate_covariance_formula_witness :
    (∃ r, calculate_covariance wit_lin wit_lin = Except.ok r ∧
      r.covariance = spec_covariance wit_lin wit_lin wit_lin.keys) ∧
    (∃ r, calculate_covariance wit_lin wit_lin = Except.ok r ∧
      r.covariance = spec_variance wit_lin wit_lin.keys) :=
  calculate_covariance_formula wit_lin wit_lin rfl (by decide)

/-! ## C4: the correlation coefficient -/

/-- C4: over an aligned pair, the returned correlation coefficient is the
covariance divided (as an unguarded IEEE-754 f64 division) by the product of
the two population standard deviations over the same common dates; when that
product is zero the result is the propagated NaN/infinity, not a substituted
finite default; and the self-correlation of a series with positive variance
is exactly 1. -/
theorem correlation_coefficient_spec (a b : Series) (hkeys : a.keys = b.keys)
    (hne : a.keys.Nonempty) :
    (∃ r, calculate_covariance a b = Except.ok r ∧
      r.correlation_coefficient =
        fpDiv r.covariance (spec_std_dev a a.keys * spec_std_dev b a.keys)) ∧
    (spec_std_dev a a.keys * spec_std_dev b a.keys = 0 →
      ∃ r, calculate_covariance a b = Except.ok r ∧
        (r.correlation_coefficient = FpVal.nan ∨
          r.correlation_coefficient = FpVal.posInf ∨
          r.correlation_coefficient = FpVal.negInf)) ∧
    (0 < spec_variance a a.keys →
      ∃ r, calculate_covariance a a = Except.ok r ∧
        r.correlation_coefficient = FpVal.fin 1) := by
  refine ⟨⟨_, calculate_covariance_closed_form a b hkeys hne, rfl⟩, ?_, ?_⟩
  · intro hzero
    refine ⟨_, calculate_covariance_closed_form a b hkeys hne, ?_⟩
    have hvar : spec_variance a a.keys = 0 ∨ spec_variance b a.keys = 0 := by
      rcases mul_eq_zero.mp hzero with h | h
      · left
        exact le_antisymm (Real.sqrt_eq_zero'.mp h) (spec_variance_nonneg a a.keys)
      · right
        exact le_antisymm (Real.sqrt_eq_zero'.mp h) (spec_variance_nonneg b a.keys)
    have hcov : spec_covariance a b a.keys = 0 :=
      spec_covariance_of_zero_variance a b a.keys hvar
    left
    show fpDiv (spec_covariance a b a.keys)
      (spec_std_dev a a.keys * spec_std_dev b a.keys) = FpVal.nan
    rw [hcov, hzero]
    simp [fpDiv]
  · intro hpos
    refine ⟨_, calculate_covariance_closed_form a a rfl hne, ?_⟩
    show fpDiv (spec_covariance a a a.keys)
      (spec_std_dev a a.keys * spec_std_dev a a.keys) = FpVal.fin 1
    rw [spec_covariance_self a a.keys]
    unfold spec_std_dev
    rw [Real.mul_self_sqrt (spec_variance_nonneg a a.keys)]
    unfold fpDiv
    rw [if_neg (ne_of_gt hpos), div_self (ne_of_gt hpos)]

/-- Constant series over dates 0 and 1, used in the C4 witness for the
zero-deviation edge case. -/
noncomputable def wit_const : Series := ⟨{0, 1}, fun _ => 1⟩

/-- C4 witness: the correlation specification applied at concrete inputs —
the NaN edge case on a constant series (zero standard deviation), and the
exact self-correlation 1 on a two-point series of positive variance. -/
theorem correlation_coefficient_spec_witness :
    (∃ r, calculate_covariance wit_const wit_const = Except.ok r ∧
      (r.correlation_coefficient = FpVal.nan ∨
        r.correlation_coefficient = FpVal.posInf ∨
        r.correlation_coefficient = FpVal.negInf)) ∧
    (∃ r, calculate_covariance wit_lin wit_lin = Except.ok r ∧
      r.correlation_coefficient = FpVal.fin 1) := by
  constructor
  · apply (correlation_coefficient_spec wit_const wit_const rfl (by decide)).2.1
    have : spec_variance wit_const wit_const.keys = 0 := by
      unfold spec_variance spec_mean wit_const
      norm_num
    simp [spec_std_dev, this]
  · apply (correlation_coefficient_spec wit_lin wit_lin rfl (by decide)).2.2
    unfold spec_variance spec_mean wit_lin
    norm_num [Finset.sum_insert, Finset.mem_singleton]

/-! ## Log returns, standard deviation and realized volatility
(src/data.rs lines 182–197, 271–285, 296–311) -/

/-- Errors raised by the volatility pipeline of src/data.rs. -/
inductive VolError where
  | noPriceData
  | notEnoughPricePoints
  | noLogReturns
deriving DecidableEq

/-- Embedding of `HistoricalData::calculate_log_returns` (src/data.rs lines
271–285): fewer than two prices fail; otherwise `windows(2)` (embedded as the
zip of the list with its tail) maps each adjacent pair (p1, p2) to
ln(p2 / p1). -/
noncomputable def calculate_log_returns (prices : List ℝ) : Except VolError (List ℝ) :=
  if prices.length < 2 then Except.error VolError.notEnoughPricePoints
  else Except.ok ((prices.zip prices.tail).map fun w => Real.log (w.2 / w.1))

/-- Embedding of `HistoricalData::calculate_standard_deviation` (src/data.rs
lines 296–311): an empty input fails; otherwise the population standard
deviation (divisor = length) of the log returns, annualized by √252. -/
noncomputable def calculate_standard_deviation (log_returns : List ℝ) :
    Except VolError ℝ :=
  if log_returns = [] then Except.error VolError.noLogReturns
  else
    Except.ok
      (Real.sqrt
        ((log_returns.map fun x =>
            (x - log_returns.sum / (log_returns.length : ℝ)) ^ 2).sum /
          (log_returns.length : ℝ)) *
        Real.sqrt 252)

/-- The chronological price sequence of a series: its dates sorted ascending,
mapped through the price function (src/data.rs lines 189–192). -/
noncomputable def sorted_prices (s : Series) : List ℝ :=
  (s.keys.sort (· ≤ ·)).map s.price

/-- Embedding of `HistoricalData::calculate_realized_volatility` (src/data.rs
lines 182–197) downstream of the fetch: an empty series fails; otherwise the
log returns of the chronological price sequence feed the annualized standard
deviation. -/
noncomputable def calculate_realized_volatility (s : Series) : Except VolError ℝ :=
  if s.keys = ∅ then Except.error VolError.noPriceData
  else
    match calculate_log_returns (sorted_prices s) with
    | Except.error e => Except.error e
    | Except.ok lr => calculate_standard_deviation lr

/-! ## C5: log returns -/

/-- C5: with n ≥ 2 prices, `calculate_log_returns` succeeds with exactly
n − 1 values whose i-th element is ln(price[i+1] / price[i]); with 0 or 1
prices it fails with the insufficient-points error; and on a two-price list
it returns the single value ln(p2 / p1). -/
theorem calculate_log_returns_spec (prices : List ℝ) :
    (2 ≤ prices.length →
      ∃ lr, calculate_log_returns prices = Except.ok lr ∧
        lr.length = prices.length - 1 ∧
        ∀ i, i < prices.length - 1 →
          lr.getD i 0 = Real.log (prices.getD (i + 1) 0 / prices.getD i 0)) ∧
    (prices.length < 2 →
      calculate_log_returns prices = Except.error VolError.notEnoughPricePoints) ∧
    (∀ p1 p2 : ℝ, calculate_log_returns [p1, p2] = Except.ok [Real.log (p2 / p1)]) := by
  refine ⟨?_, ?_, ?_⟩
  · intro h2
    refine ⟨(prices.zip prices.tail).map fun w => Real.log (w.2 / w.1), ?_, ?_, ?_⟩
    · unfold calculate_log_returns
      rw [if_neg (by omega)]
    · simp [List.length_zip]
    · intro i hi
      have hlen : ((prices.zip prices.tail).map
          fun w => Real.log (w.2 / w.1)).length = prices.length - 1 := by
        simp [List.length_zip]
      have hiz : i < (prices.zip prices.tail).length := by
        simp [List.length_zip]
        omega
      have hip : i < prices.length := by omega
      have hit : i < prices.tail.length := by
        simp [List.length_tail]
        omega
      rw [List.getD_eq_getElem _ _ (by rw [hlen]; exact hi)]
      rw [List.getD_eq_getElem _ _ (by omega),
        List.getD_eq_getElem _ _ hip]
      simp only [List.getElem_map, List.getElem_zip]
      rw [List.getElem_tail]
  · intro h2
    unfold calculate_log_returns
    rw [if_pos h2]
  · intro p1 p2
    rfl

/-- C5 witness: log returns of the concrete three-price list [1, 2, 4] —
two values, each the log of the ratio of adjacent prices. -/
theorem calculate_log_returns_spec_witness :
    ∃ lr, calculate_log_returns [(1 : ℝ), 2, 4] = Except.ok lr ∧
      lr.length = [(1 : ℝ), 2, 4].length - 1 ∧
      ∀ i, i < [(1 : ℝ), 2, 4].length - 1 →
        lr.getD i 0 =
          Real.log ([(1 : ℝ), 2, 4].getD (i + 1) 0 / [(1 : ℝ), 2, 4].getD i 0) :=
  (calculate_log_returns_spec [(1 : ℝ), 2, 4]).1 (by simp)

/-! ## C6: realized volatility -/

/-- Log returns of the chronological price sequence of a series, following
the spec's words (§4.4). -/
noncomputable def spec_log_returns (s : Series) : List ℝ :=
  ((sorted_prices s).zip (sorted_prices s).tail).map fun w => Real.log (w.2 / w.1)

/-- Population standard deviation of a list of values, following the spec's
words (divisor = length). -/
noncomputable def spec_list_std_dev (xs : List ℝ) : ℝ :=
  Real.sqrt ((xs.map fun x => (x - xs.sum / (xs.length : ℝ)) ^ 2).sum / (xs.length : ℝ))

theorem sorted_prices_length (s : Series) :
    (sorted_prices s).length = s.keys.card := by
  simp [sorted_prices, Finset.length_sort]

/-- C6: with at least two dated prices, `calculate_realized_volatility` sorts
the dates ascending, takes the log returns of the chronological price
sequence, and returns their population standard deviation annualized by
√252; an empty series and a one-point series fail with the corresponding
errors rather than returning a sentinel value. -/
theorem calculate_realized_volatility_spec (s : Series) :
    (s.keys = ∅ →
      calculate_realized_volatility s = Except.error VolError.noPriceData) ∧
    (s.keys.card = 1 →
      calculate_realized_volatility s = Except.error VolError.notEnoughPricePoints) ∧
    (2 ≤ s.keys.card →
      calculate_realized_volatility s =
        Except.ok (spec_list_std_dev (spec_log_returns s) * Real.sqrt 252)) := by
  refine ⟨?_, ?_, ?_⟩
  · intro hempty
    unfold calculate_realized_volatility
    rw [if_pos hempty]
  · intro h1
    unfold calculate_realized_volatility
    rw [if_neg (by
      intro h
      rw [h] at h1
      simp at h1)]
    have hlen : (sorted_prices s).length = 1 := by rw [sorted_prices_length, h1]
    unfold calculate_log_returns
    rw [if_pos (by omega)]
  · intro h2
    have hlen : (sorted_prices s).length = s.keys.card := sorted_prices_length s
    unfold calculate_realized_volatility
    rw [if_neg (by
      intro h
      rw [h] at h2
      simp at h2)]
    have hok : calculate_log_returns (sorted_prices s) =
        Except.ok (spec_log_returns s) := by
      unfold calculate_log_returns spec_log_returns
      rw [if_neg (by omega)]
    rw [hok]
    show calculate_standard_deviation (spec_log_returns s) =
      Except.ok (spec_list_std_dev (spec_log_returns s) * Real.sqrt 252)
    have hlr : (spec_log_returns s).length = s.keys.card - 1 := by
      unfold spec_log_returns
      simp [List.length_zip, hlen]
    have hne : spec_log_returns s ≠ [] := by
      intro h
      rw [h] at hlr
      simp at hlr
      omega
    unfold calculate_standard_deviation spec_list_std_dev
    rw [if_neg hne]

/-- C6 witness: realized volatility of the concrete two-point constant
series succeeds with the annualized population standard deviation of its log
returns. -/
theorem calculate_realized_volatility_spec_witness :
    calculate_realized_volatility wit_const =
      Except.ok (spec_list_std_dev (spec_log_returns wit_const) * Real.sqrt 252) :=
  (calculate_realized_volatility_spec wit_const).2.2 (by decide)

/-! ## C7: scale invariance of realized volatility -/

/-- A copy of a series with every price multiplied by the scalar c. -/
noncomputable def scale_series (c : ℝ) (s : Series) : Series :=
  ⟨s.keys, fun d => c * s.price d⟩

theorem calculate_log_returns_scale (ps : List ℝ) (c : ℝ) (hc : c ≠ 0) :
    calculate_log_returns (ps.map fun x => c * x) = calculate_log_returns ps := by
  unfold calculate_log_returns
  rw [List.length_map]
  by_cases h : ps.length < 2
  · rw [if_pos h, if_pos h]
  · rw [if_neg h, if_neg h]
    congr 1
    rw [← List.map_tail, List.zip_map, List.map_map]
    apply List.map_congr_left
    intro w _
    show Real.log (c * w.2 / (c * w.1)) = Real.log (w.2 / w.1)
    rw [mul_div_mul_left _ _ hc]

/-- C7: multiplying every price of a series (with at least two points) by a
positive scalar leaves the realized volatility unchanged, because the log
returns of the scaled prices are identical to the unscaled log returns. -/
theorem realized_volatility_scale_invariant (s : Series) (c : ℝ) (hc : 0 < c)
    (h2 : 2 ≤ s.keys.card) :
    calculate_realized_volatility (scale_series c s) =
      calculate_realized_volatility s := by
  have hsp : sorted_prices (scale_series c s) = (sorted_prices s).map fun x => c * x := by
    unfold sorted_prices scale_series
    rw [List.map_map]
    rfl
  unfold calculate_realized_volatility
  show (if s.keys = ∅ then _ else _) = _
  rw [hsp, calculate_log_returns_scale (sorted_prices s) c (ne_of_gt hc)]

/-- C7 witness: scaling the concrete two-point series by 2 leaves its
realized volatility unchanged. -/
theorem realized_volatility_scale_invariant_witness :
    calculate_realized_volatility (scale_series 2 wit_const) =
      calculate_realized_volatility wit_const :=
  realized_volatility_scale_invariant wit_const 2 (by norm_num) (by decide)

/-! ## JSON documents and get_yearly_data_by_token (src/data.rs lines 208–248) -/

/-- Embedding of `serde_json::Value`. Numbers are idealized as rationals. -/
inductive Json where
  | null
  | bool (b : Bool)
  | num (q : ℚ)
  | str (s : String)
  | arr (xs : List Json)
  | obj (fields : List (String × Json))

/-- Embedding of `serde_json` object indexing `value["key"]`: a missing key,
or indexing a non-object, yields `Null`. -/
def Json.index (j : Json) (key : String) : Json :=
  match j with
  | Json.obj fields =>
    match fields.lookup key with
    | some v => v
    | none => Json.null
  | _ => Json.null

/-- Embedding of `serde_json` array indexing `value[i]`: out-of-bounds, or
indexing a non-array, yields `Null`. -/
def Json.idx (j : Json) (i : ℕ) : Json :=
  match j with
  | Json.arr xs => xs.getD i Json.null
  | _ => Json.null

/-- Embedding of `Value::as_array`. -/
def Json.as_array : Json → Option (List Json)
  | Json.arr xs => some xs
  | _ => none

/-- Embedding of `Value::as_f64`: only numbers convert; `null` (a missing
trading day) and every other shape yield `None`. -/
def Json.as_f64 : Json → Option ℚ
  | Json.num q => some q
  | _ => none

/-- Embedding of `Value::as_i64`: integral numbers only. -/
def Json.as_i64 : Json → Option ℤ
  | Json.num q => if q.den = 1 then some q.num else none
  | _ => none

/-- Embedding of `DateTime::from_timestamp(t, 0).date_naive()` as the UTC day
index of the UNIX timestamp (floor division by 86400 seconds). The
out-of-range check of `from_timestamp` (±262000 years) is elided: it cannot
fire on any i64 second count those bounds admit here, and no claim concerns
it. -/
def timestamp_to_date (t : ℤ) : ℤ :=
  Int.fdiv t 86400

/-- Embedding of `HashMap::insert`: overwrite the value when the key exists,
append the entry otherwise (last write wins on duplicate dates). -/
def insert_entry (m : List (ℤ × ℚ)) (k : ℤ) (v : ℚ) : List (ℤ × ℚ) :=
  if m.any (fun e => e.1 = k) then
    m.map (fun e => if e.1 = k then (k, v) else e)
  else
    m ++ [(k, v)]

/-- Outcome of `HistoricalData::get_yearly_data_by_token` on a parsed
response document: a date-to-price map, an error value, or a panic (an
`unwrap()` or slice index that fails aborts instead of returning `Err`). -/
inductive FetchOutcome where
  | ok (data : List (ℤ × ℚ))
  | error (msg : String)
  | panic

/-- The nested lookup of the close-price array in
`get_yearly_data_by_token`:
`res["chart"]["result"][0]["indicators"]["quote"][0]["close"]`. -/
def close_node (res : Json) : Json :=
  (((((res.index "chart").index "result").idx 0).index
    "indicators").index "quote").idx 0 |>.index "close"

/-- The nested lookup of the timestamp array:
`res["chart"]["result"][0]["timestamp"]`. -/
def timestamp_node (res : Json) : Json :=
  ((res.index "chart").index "result").idx 0 |>.index "timestamp"

/-- Embedding of the parsing phase of `HistoricalData::get_yearly_data_by_token`
(src/data.rs lines 217–247), after the HTTP request has produced the document
`res`. A missing close array returns the error naming the token; a missing
timestamp array hits `.as_array().unwrap()` and panics, as does a non-integer
timestamp entry (`v.as_i64().unwrap()`) or an index `timestamp[i]` past the
end of the timestamp list. -/
def get_yearly_data (token : Token) (res : Json) : FetchOutcome :=
  match (close_node res).as_array with
  | some data =>
    let filtered := data.filterMap Json.as_f64
    match (timestamp_node res).as_array with
    | none => FetchOutcome.panic
    | some ts =>
      if ts.all (fun v => v.as_i64.isSome) then
        let dates := ts.filterMap (fun v => v.as_i64.map timestamp_to_date)
        if filtered.length ≤ dates.length then
          FetchOutcome.ok
            ((filtered.zip dates).foldl (fun m e => insert_entry m e.2 e.1) [])
        else FetchOutcome.panic
      else FetchOutcome.panic
  | none =>
    FetchOutcome.error
      ("Not possible to fetch yearly token<" ++ token.as_string ++ "> data.")

/-! ## C2: absent arrays in the upstream document -/

/-- A document with no close-price array at the expected path. -/
def doc_no_close : Json :=
  Json.obj [("chart", Json.obj [("result", Json.arr [Json.obj []])])]

/-- A document with the close-price array present but the parallel timestamp
array absent. -/
def doc_close_no_timestamp : Json :=
  Json.obj [("chart", Json.obj [("result", Json.arr [Json.obj
    [("indicators", Json.obj [("quote", Json.arr [Json.obj
      [("close", Json.arr [Json.num 1, Json.num 2])]])])]])])]

/-- C2 (code bug): a document without the close array does yield an error
value, but a document that contains the close array and lacks the timestamp
array makes `get_yearly_data_by_token` panic on `.as_array().unwrap()`
instead of returning the error the claim requires. -/
theorem get_yearly_data_missing_arrays :
    get_yearly_data Token.Bitcoin doc_no_close =
      FetchOutcome.error "Not possible to fetch yearly token<Bitcoin> data." ∧
    get_yearly_data Token.Bitcoin doc_close_no_timestamp = FetchOutcome.panic :=
  ⟨rfl, rfl⟩

/-! ## The resilient request executor (src/request.rs) -/

/-- HTTP methods as matched by `Request::process_request`: GET and POST are
supported, anything else is rejected. -/
inductive HMethod where
  | GET
  | POST
  | OTHER (name : String)

/-- Result of one `request.send().await` attempt: an HTTP response with a
status code and (for status 200) the result of parsing its body as JSON, or
a transport-level failure (connection error or timeout). -/
inductive AttemptOutcome where
  | response (status : ℕ) (body : Except String Json)
  | transportError

/-- Result of `Request::process_request`. -/
inductive ReqResult where
  | ok (body : Json)
  | jsonError (e : String)
  | unsupportedMethod
  | fatalStatus (url : String) (status : ℕ)
  | attemptsExhausted (url : String)

/-- Observable events of one run of the retry loop: an attempt being issued,
or the inter-attempt sleep with its duration in seconds. -/
inductive Event where
  | attemptMade (n : ℕ)
  | slept (seconds : ℚ)
deriving DecidableEq

/-- Embedding of `let attempts_limit = 15` (src/request.rs line 40). -/
def attempts_limit : ℕ := 15

/-- Embedding of `Duration::from_secs_f64(1.5)` (src/request.rs line 42). -/
def wait_delay : ℚ := 3 / 2

/-- Embedding of the `while attempt <= attempts_limit` retry loop of
`Request::process_request` (src/request.rs lines 51–105). `responses n`
is the outcome the network yields for attempt number `n`; `fuel` counts the
attempts the budget still allows (`attempts_limit - attempt + 1`), so fuel 0
is the loop exit that reports exhausted attempts. The returned event list
records each attempt issued and each inter-attempt sleep, in order: a 200
response returns its parsed body (or the parse error, via `?`); 404 and 429
log, sleep and retry; 504 aborts with the URL and status; any other non-200
status logs, sleeps and retries; a transport failure retries with no sleep.
An unsupported method is rejected inside the loop before sending. -/
def HMethod.supported : HMethod → Bool
  | HMethod.GET => true
  | HMethod.POST => true
  | HMethod.OTHER _ => false

def process_loop (method : HMethod) (url : String)
    (responses : ℕ → AttemptOutcome) : ℕ → ℕ → ReqResult × List Event
  | 0, _ => (ReqResult.attemptsExhausted url, [])
  | fuel + 1, attempt =>
    if method.supported = false then (ReqResult.unsupportedMethod, [])
    else
      match responses attempt with
      | AttemptOutcome.transportError =>
        let r := process_loop method url responses fuel (attempt + 1)
        (r.1, Event.attemptMade attempt :: r.2)
      | AttemptOutcome.response s body =>
        if s = 200 then
          match body with
          | Except.ok j => (ReqResult.ok j, [Event.attemptMade attempt])
          | Except.error e => (ReqResult.jsonError e, [Event.attemptMade attempt])
        else if s = 404 ∨ s = 429 then
          let r := process_loop method url responses fuel (attempt + 1)
          (r.1, Event.attemptMade attempt :: Event.slept wait_delay :: r.2)
        else if s = 504 then
          (ReqResult.fatalStatus url s, [Event.attemptMade attempt])
        else
          let r := process_loop method url responses fuel (attempt + 1)
          (r.1, Event.attemptMade attempt :: Event.slept wait_delay :: r.2)

/-- Embedding of `Request::process_request` (src/request.rs lines 34–106):
run the retry loop from attempt 1 with the full attempt budget. -/
def process_request (method : HMethod) (url : String)
    (responses : ℕ → AttemptOutcome) : ReqResult × List Event :=
  process_loop method url responses attempts_limit 1

/-! ## C8: a 504 on the first attempt is fatal -/

/-- C8: when the first attempt receives an HTTP 504 response,
`process_request` fails at once with the error carrying the URL and status:
its event trace is the single first attempt — no sleep and no second
attempt. -/
theorem first_attempt_504_fatal (url : String) (responses : ℕ → AttemptOutcome)
    (body : Except String Json) (h : responses 1 = AttemptOutcome.response 504 body) :
    process_request HMethod.GET url responses =
      (ReqResult.fatalStatus url 504, [Event.attemptMade 1]) := by
  show process_loop HMethod.GET url responses 15 1 = _
  rw [show (15 : ℕ) = 14 + 1 from rfl]
  unfold process_loop
  rw [h]
  norm_num [HMethod.supported]

/-- Responses for the C8 witness: every attempt yields a 504. -/
def rs_504 : ℕ → AttemptOutcome :=
  fun _ => AttemptOutcome.response 504 (Except.error "")

/-- C8 witness: the concrete run in which attempt 1 receives a 504. -/
theorem first_attempt_504_fatal_witness :
    process_request HMethod.GET "u" rs_504 =
      (ReqResult.fatalStatus "u" 504, [Event.attemptMade 1]) :=
  first_attempt_504_fatal "u" rs_504 (Except.error "") rfl

/-! ## C9: the retry policy -/

/-- An attempt outcome the executor retries: any HTTP response whose status
is neither 200 nor 504, and any transport-level failure. -/
def is_transient : AttemptOutcome → Prop
  | AttemptOutcome.response s _ => s ≠ 200 ∧ s ≠ 504
  | AttemptOutcome.transportError => True

/-- Whether an attempt outcome is an HTTP response (rather than a transport
failure) — exactly the failed outcomes whose retry incurs the sleep. -/
def is_http_response : AttemptOutcome → Bool
  | AttemptOutcome.response _ _ => true
  | AttemptOutcome.transportError => false

/-- The event trace of a run that retries attempts a, …, k − 1 and stops at
attempt k: every failed HTTP attempt is followed by the 1.5-second sleep,
every transport failure by no sleep, and no sleep precedes an attempt. -/
def retry_trace (responses : ℕ → AttemptOutcome) (a k : ℕ) : List Event :=
  (List.range' a (k - a)).flatMap
    (fun j =>
      if is_http_response (responses j) then
        [Event.attemptMade j, Event.slept wait_delay]
      else [Event.attemptMade j]) ++ [Event.attemptMade k]

theorem retry_trace_cons (responses : ℕ → AttemptOutcome) (a k : ℕ) (h : a < k) :
    retry_trace responses a k =
      (if is_http_response (responses a) then
        [Event.attemptMade a, Event.slept wait_delay]
      else [Event.attemptMade a]) ++ retry_trace responses (a + 1) k := by
  unfold retry_trace
  rw [show k - a = (k - (a + 1)) + 1 by omega, List.range'_succ]
  simp [List.append_assoc]

theorem process_loop_transport (url : String) (responses : ℕ → AttemptOutcome)
    (fuel a : ℕ) (h : responses a = AttemptOutcome.transportError) :
    process_loop HMethod.GET url responses (fuel + 1) a =
      ((process_loop HMethod.GET url responses fuel (a + 1)).1,
        Event.attemptMade a :: (process_loop HMethod.GET url responses fuel (a + 1)).2) := by
  conv_lhs => rw [process_loop]
  rw [h]
  norm_num [HMethod.supported]

theorem process_loop_transient_http (url : String)
    (responses : ℕ → AttemptOutcome) (fuel a s : ℕ) (body : Except String Json)
    (h200 : s ≠ 200) (h504 : s ≠ 504)
    (h : responses a = AttemptOutcome.response s body) :
    process_loop HMethod.GET url responses (fuel + 1) a =
      ((process_loop HMethod.GET url responses fuel (a + 1)).1,
        Event.attemptMade a :: Event.slept wait_delay ::
          (process_loop HMethod.GET url responses fuel (a + 1)).2) := by
  conv_lhs => rw [process_loop]
  rw [h, if_neg (by norm_num [HMethod.supported])]
  show (if s = 200 then _ else _) = _
  rw [if_neg h200]
  by_cases h44 : s = 404 ∨ s = 429
  · rw [if_pos h44]
  · rw [if_neg h44, if_neg h504]

theorem process_loop_success (url : String) (responses : ℕ → AttemptOutcome)
    (fuel a : ℕ) (b : Json)
    (h : responses a = AttemptOutcome.response 200 (Except.ok b)) :
    process_loop HMethod.GET url responses (fuel + 1) a =
      (ReqResult.ok b, [Event.attemptMade a]) := by
  conv_lhs => rw [process_loop]
  rw [h]
  norm_num [HMethod.supported]

theorem process_loop_first_success (url : String)
    (responses : ℕ → AttemptOutcome) (b : Json) :
    ∀ fuel a k, a ≤ k → k < a + fuel →
      (∀ j, a ≤ j → j < k → is_transient (responses j)) →
      responses k = AttemptOutcome.response 200 (Except.ok b) →
      process_loop HMethod.GET url responses fuel a =
        (ReqResult.ok b, retry_trace responses a k) := by
  intro fuel
  induction fuel with
  | zero =>
    intro a k h1 h2 _ _
    omega
  | succ n ih =>
    intro a k h1 h2 htrans hk
    rcases eq_or_lt_of_le h1 with heq | hlt
    · subst heq
      rw [process_loop_success url responses n a b hk]
      unfold retry_trace
      simp
    · have htr := htrans a le_rfl hlt
      have ih' := ih (a + 1) k hlt (by omega)
        (fun j hj1 hj2 => htrans j (by omega) hj2) hk
      rw [retry_trace_cons responses a k hlt]
      cases hra : responses a with
      | transportError =>
        rw [process_loop_transport url responses n a hra, ih']
        simp [is_http_response]
      | response s body =>
        rw [hra] at htr
        rw [process_loop_transient_http url responses n a s body htr.1 htr.2 hra,
          ih']
        simp [is_http_response]

theorem process_loop_exhaust (url : String) (responses : ℕ → AttemptOutcome) :
    ∀ fuel a, (∀ j, a ≤ j → j < a + fuel → is_transient (responses j)) →
      (process_loop HMethod.GET url responses fuel a).1 =
        ReqResult.attemptsExhausted url := by
  intro fuel
  induction fuel with
  | zero =>
    intro a _
    rfl
  | succ n ih =>
    intro a htrans
    have htr := htrans a le_rfl (by omega)
    have ih' := ih (a + 1) (fun j hj1 hj2 => htrans j (by omega) (by omega))
    cases hra : responses a with
    | transportError =>
      rw [process_loop_transport url responses n a hra]
      exact ih'
    | response s body =>
      rw [hra] at htr
      rw [process_loop_transient_http url responses n a s body htr.1 htr.2 hra]
      exact ih'

theorem process_request_no_initial_sleep (url : String)
    (responses : ℕ → AttemptOutcome) :
    (process_request HMethod.GET url responses).2.head? =
      some (Event.attemptMade 1) := by
  show (process_loop HMethod.GET url responses 15 1).2.head? = _
  rw [show (15 : ℕ) = 14 + 1 from rfl]
  unfold process_loop
  rw [if_neg (by norm_num [HMethod.supported])]
  cases hra : responses 1 with
  | transportError => rfl
  | response s body =>
    show ((if s = 200 then _ else _ : ReqResult × List Event)).2.head? = _
    by_cases h200 : s = 200
    · rw [if_pos h200]
      cases body <;> rfl
    · rw [if_neg h200]
      by_cases h44 : s = 404 ∨ s = 429
      · rw [if_pos h44]
        rfl
      · rw [if_neg h44]
        by_cases h504 : s = 504
        · rw [if_pos h504]
          rfl
        · rw [if_neg h504]
          rfl

/-- C9: the executor returns the parsed body of the first 200 response when
every earlier attempt failed transiently, with the trace `retry_trace` —
each failed HTTP attempt (404, 429 or any other non-200 non-504 status)
followed by the 1.5-second sleep, each transport failure retried with no
sleep; no event precedes attempt 1 (in particular no sleep); and if all 15
attempts fail transiently the run fails with the error naming the URL. -/
theorem process_request_retry_policy (url : String)
    (responses : ℕ → AttemptOutcome) (b : Json) (k : ℕ) :
    (1 ≤ k → k ≤ attempts_limit →
      (∀ j, 1 ≤ j → j < k → is_transient (responses j)) →
      responses k = AttemptOutcome.response 200 (Except.ok b) →
      process_request HMethod.GET url responses =
        (ReqResult.ok b, retry_trace responses 1 k)) ∧
    ((∀ j, 1 ≤ j → j ≤ attempts_limit → is_transient (responses j)) →
      (process_request HMethod.GET url responses).1 =
        ReqResult.attemptsExhausted url) ∧
    (process_request HMethod.GET url responses).2.head? =
      some (Event.attemptMade 1) := by
  refine ⟨?_, ?_, process_request_no_initial_sleep url responses⟩
  · intro h1 h15 htrans hk
    exact process_loop_first_success url responses b attempts_limit 1 k h1
      (by unfold attempts_limit at h15 ⊢; omega) htrans hk
  · intro htrans
    exact process_loop_exhaust url responses attempts_limit 1
      (fun j hj1 hj2 => htrans j hj1 (by unfold attempts_limit at hj2 ⊢; omega))

/-- Responses for the C9 witness: a 429 on attempt 1, a transport failure on
attempt 2, then a 200 with body "B". -/
def rs_mixed : ℕ → AttemptOutcome := fun n =>
  if n = 1 then AttemptOutcome.response 429 (Except.error "")
  else if n = 2 then AttemptOutcome.transportError
  else AttemptOutcome.response 200 (Except.ok (Json.str "B"))

/-- C9 witness: on the concrete run [429, transport failure, 200 "B"] the
executor returns body "B" after attempts 1–3, sleeping exactly once — after
the 429 and not after the transport failure, with no sleep before
attempt 1. -/
theorem process_request_retry_policy_witness :
    process_request HMethod.GET "u" rs_mixed =
      (ReqResult.ok (Json.str "B"),
        [Event.attemptMade 1, Event.slept wait_delay, Event.attemptMade 2,
          Event.attemptMade 3]) := by
  have h := (process_request_retry_policy "u" rs_mixed (Json.str "B") 3).1
    (by norm_num) (by norm_num [attempts_limit])
    (fun j hj1 hj2 => by
      interval_cases j
      · exact ⟨by norm_num, by norm_num⟩
      · exact trivial)
    rfl
  rw [h]
  rfl

/-! ## C10: display names versus API symbols -/

/-- C10: `as_string` gives a display name distinct from the API symbol `id`
for Bitcoin, Ethereum and Snp500, but for Solana it returns "SOL-USD", the
very string `id` returns — so error messages built from `as_string` name the
Solana instrument by its API symbol. -/
theorem as_string_vs_id :
    Token.as_string Token.Bitcoin = "Bitcoin" ∧
    Token.as_string Token.Ethereum = "Ethereum" ∧
    Token.as_string Token.Snp500 = "Snp500" ∧
    Token.as_string Token.Bitcoin ≠ Token.id Token.Bitcoin ∧
    Token.as_string Token.Ethereum ≠ Token.id Token.Ethereum ∧
    Token.as_string Token.Snp500 ≠ Token.id Token.Snp500 ∧
    Token.as_string Token.Solana = "SOL-USD" ∧
    Token.as_string Token.Solana = Token.id Token.Solana := by
  refine ⟨rfl, rfl, rfl, ?_, ?_, ?_, rfl, rfl⟩ <;> decide

end BitcoinSnpCov
